import Mathlib

/-!
# Kernel capability probe (`bpf/probes/raw_main.c`)

A shallow embedding of the probing engine of `raw_main.c`: the syscall layer
(`bpf`, `bpf_prog_load`, `bpf_map_create`), the instruction-length resolver
(`bpf_test_length`), the reporter (`bpf_report`), the probe runner
(`bpf_run_test`) and the loop of `main` over the test table.

The kernel is an arbitrary deterministic transition function on an abstract
kernel state; every call of the program that is visible from outside
(a `bpf()` call with its return value, a `close`, a `printf`, a `fprintf` to
the error stream) is recorded as an `Event`, in program order.  Undefined
behaviour of the C program (a store outside the instruction buffer, walking
off the end of the fixup array) is the result `none`.

C integers are kept as unbounded `Int` and `Nat`.  The program does no
arithmetic but the loop counter of `bpf_test_length` and its `len + 1`, which
stay within `0 .. BPF_MAXINSNS`, and it copies handles and sizes unchanged, so
no value wraps as long as `BPF_MAXINSNS` fits an `int`.  `printf` and `close`
are taken to leave `errno` alone.
-/

namespace RawProbe

/-! ## Data model -/

/-- Modelled from the spec: the instruction entry `struct bpf_insn`, declared in
`raw_insn.h` (not part of the sources at hand): an opcode, two register
numbers, an offset and an immediate. -/
structure bpf_insn where
  code : Nat
  dst_reg : Nat
  src_reg : Nat
  off : Int
  imm : Int
deriving DecidableEq, Repr

instance : Inhabited bpf_insn := ⟨⟨0, 0, 0, 0, 0⟩⟩

/-- The map fixup spec `struct bpf_map_fixup`; the enumeration `bpf_map_type`
is kept as its number. -/
structure bpf_map_fixup where
  off : Int
  type : Nat
  size_key : Nat
  size_val : Nat
  flags : Nat
deriving DecidableEq, Repr

/-- The test descriptor `struct bpf_test`.  `insns` is the array of capacity
`BPF_MAXINSNS`, `fixup_map` the array of fixup specs (ended by an entry of
offset zero), `warn` is `none` for a null pointer. -/
structure bpf_test where
  emits : String
  type : Nat
  insns : List bpf_insn
  fixup_map : List bpf_map_fixup
  warn : Option String
deriving DecidableEq, Repr

/-- Capacity of the fixup array of a descriptor. -/
def BPF_MAX_FIXUPS : Nat := 64

/-- What the build environment supplies and the sources at hand do not fix:
the capacity `BPF_MAXINSNS` of an instruction buffer, the syscall number
`__NR_bpf` (`none` when it is not defined for the target architecture), the
error number `ENOSYS` and the text `strerror` gives for an error number. -/
structure Platform where
  BPF_MAXINSNS : Nat
  NR_bpf : Option Nat
  ENOSYS : Int
  strerror : Int → String

/-- The command and the fields of `union bpf_attr` that the two wrappers fill
in; every other field is zero.  A program load carries the buffer the
`insns` pointer refers to. -/
inductive bpf_request where
  | MAP_CREATE (map_type key_size value_size max_entries map_flags : Nat)
  | PROG_LOAD (prog_type : Nat) (insns : List bpf_insn) (insn_cnt : Int)
      (license : String) (log_size log_level : Nat)
deriving DecidableEq, Repr

/-- What the kernel answers to one request: the return value of the system
call, the error number it leaves in `errno` when the return value is
negative, and the text it writes to the log buffer when one was supplied. -/
structure bpf_reply where
  ret : Int
  err : Int
  log : String
deriving DecidableEq, Repr

/-- An externally visible action of the program.  `bpf` is a call of `bpf()`
with the value it returned; `flag_line` is the `printf` that opens
`bpf_report`, `printf` every other write to standard output, and
`fprintf_stderr` a write to the error stream. -/
inductive Event where
  | bpf (req : bpf_request) (ret : Int)
  | close (fd : Int)
  | flag_line (s : String)
  | printf (s : String)
  | fprintf_stderr (s : String)
deriving DecidableEq, Repr

/-- The state the program shares with its environment: the state of the
kernel and the calling thread's `errno`. -/
structure Sys (κ : Type) where
  kernel : κ
  errno : Int

/-- A kernel: from its state and a request, a reply and the next state. -/
abbrev Kernel (κ : Type) : Type := κ → bpf_request → bpf_reply × κ

/-! ## Syscall layer -/

/-- The reply `bpf()` obtains: the kernel's when `__NR_bpf` is defined, and
otherwise `-1` with `ENOSYS` and nothing written to the log. -/
def sys_reply {κ : Type} (P : Platform) (kern : Kernel κ) (k : κ) (req : bpf_request) :
    bpf_reply × κ :=
  match P.NR_bpf with
  | some _ => kern k req
  | none => (⟨-1, P.ENOSYS, ""⟩, k)

/-- The wrapper `bpf`: one system call.  Returns the return value and the log
text, the next state, and the event of the call.  `errno` is written only
when the call fails. -/
def bpf {κ : Type} (P : Platform) (kern : Kernel κ) (req : bpf_request) (s : Sys κ) :
    (Int × String) × Sys κ × List Event :=
  let r := sys_reply P kern s.kernel req
  ((r.1.ret, r.1.log),
   { kernel := r.2, errno := if r.1.ret < 0 then r.1.err else s.errno },
   [Event.bpf req r.1.ret])

/-- The wrapper `bpf_prog_load`.  The log fields of the request are filled in
only when `size_log > 0`; `log_level` is then 1.  Returns the handle and the
contents of the log buffer after the call (empty when no buffer was given). -/
def bpf_prog_load {κ : Type} (P : Platform) (kern : Kernel κ) (type : Nat)
    (insns : List bpf_insn) (num_insns : Int) (license : String) (size_log : Nat)
    (s : Sys κ) : (Int × String) × Sys κ × List Event :=
  let r := bpf P kern
    (bpf_request.PROG_LOAD type insns num_insns license
      (if 0 < size_log then size_log else 0) (if 0 < size_log then 1 else 0)) s
  ((r.1.1, if 0 < size_log then r.1.2 else ""), r.2.1, r.2.2)

/-- The wrapper `bpf_map_create`. -/
def bpf_map_create {κ : Type} (P : Platform) (kern : Kernel κ) (type size_key size_value
    max_elem flags : Nat) (s : Sys κ) : Int × Sys κ × List Event :=
  let r := bpf P kern (bpf_request.MAP_CREATE type size_key size_value max_elem flags) s
  (r.1.1, r.2.1, r.2.2)

/-! ## Instruction-length resolver -/

/-- The loop of `bpf_test_length` from index `len` downwards: the value of
`len` when the loop is left, which is the first index at or below the start,
and above zero, whose opcode or immediate is non-zero, and zero when there is
none. -/
def bpf_test_length_loop (insn : List bpf_insn) : Nat → Nat
  | 0 => 0
  | len + 1 =>
    if (insn.getD (len + 1) default).code ≠ 0 ∨ (insn.getD (len + 1) default).imm ≠ 0 then
      len + 1
    else
      bpf_test_length_loop insn len

/-- The function `bpf_test_length`: the loop starts at `BPF_MAXINSNS - 1`, runs
while `len > 0`, and the result is `len + 1`. -/
def bpf_test_length (P : Platform) (insn : List bpf_insn) : Int :=
  let len : Int := (P.BPF_MAXINSNS : Int) - 1
  (if 0 < len then (bpf_test_length_loop insn len.toNat : Int) else len) + 1

/-! ## Reporter -/

/-- Size of the static verifier log buffer `bpf_vlog`. -/
def bpf_vlog_size : Nat := 2 ^ 16

/-- The function `bpf_report`.  `success` and `debug_mode` are C integers used as
truth values. -/
def bpf_report {κ : Type} (P : Platform) (kern : Kernel κ) (test : bpf_test)
    (success : Int) (debug_mode : Int) (s : Sys κ) : Sys κ × List Event :=
  let ev0 := [Event.flag_line
    ((if success ≠ 0 then "" else "// ") ++ "#define " ++ test.emits ++ "\n\n")]
  let r1 : Sys κ × List Event :=
    if success = 0 ∨ debug_mode ≠ 0 then
      let evA := [Event.printf "#if 0\n",
        Event.printf (test.emits ++ " " ++
          (if success ≠ 0 then "debug output" else "failed due to load error") ++ ": ")]
      let r := bpf_prog_load P kern test.type test.insns (bpf_test_length P test.insns)
        "GPL" bpf_vlog_size s
      let evB := [Event.printf (P.strerror r.2.1.errno ++ "\n" ++ r.1.2),
        Event.printf "#endif\n\n"]
      let evC := if r.1.1 > 0 then [Event.close r.1.1] else []
      (r.2.1, evA ++ r.2.2 ++ evB ++ evC)
    else (s, [])
  let ev2 :=
    match test.warn with
    | some warn =>
      if success = 0 then [Event.fprintf_stderr (test.emits ++ ": " ++ warn ++ "\n")] else []
    | none => []
  (r1.1, ev0 ++ r1.2 ++ ev2)

/-! ## Probe runner -/

/-- The store `test->insns[off].imm = fd`; `none` when `off` is not an index of
the buffer. -/
def store_imm (insns : List bpf_insn) (off : Int) (fd : Int) : Option (List bpf_insn) :=
  if 0 ≤ off ∧ off < insns.length then
    some (insns.set off.toNat { insns.getD off.toNat default with imm := fd })
  else none

/-- The `while (map->off)` loop of `bpf_run_test` over the fixup array from the
entry `map` points to.  Returns the patched buffer; `none` when the loop
leaves the array or stores outside the buffer. -/
def bpf_run_test_fixups {κ : Type} (P : Platform) (kern : Kernel κ) (emits : String)
    (debug_mode : Int) :
    List bpf_map_fixup → List bpf_insn → Sys κ → Option (List bpf_insn × Sys κ × List Event)
  | [], _, _ => none
  | map :: rest, insns, s =>
    if map.off = 0 then some (insns, s, [])
    else
      let r := bpf_map_create P kern map.type map.size_key map.size_val 1 map.flags s
      if r.1 < 0 then
        some (insns, r.2.1, r.2.2 ++
          (if debug_mode ≠ 0 then
            [Event.printf "#if 0\n",
             Event.printf (emits ++ ": bpf_map_create(): " ++ P.strerror r.2.1.errno ++ "\n"),
             Event.printf "#endif\n\n"]
           else []))
      else
        match store_imm insns map.off r.1 with
        | none => none
        | some insns1 =>
          match bpf_run_test_fixups P kern emits debug_mode rest insns1 r.2.1 with
          | none => none
          | some r2 => some (r2.1, r2.2.1, r.2.2 ++ r2.2.2)

/-- The function `bpf_run_test`.  Returns the descriptor as the call leaves it
(the buffer is patched in place), the next state and the events. -/
def bpf_run_test {κ : Type} (P : Platform) (kern : Kernel κ) (test : bpf_test)
    (debug_mode : Int) (s : Sys κ) : Option (bpf_test × Sys κ × List Event) :=
  match bpf_run_test_fixups P kern test.emits debug_mode test.fixup_map test.insns s with
  | none => none
  | some r0 =>
    let test1 : bpf_test := { test with insns := r0.1 }
    let r1 := bpf_prog_load P kern test1.type test1.insns (bpf_test_length P test1.insns)
      "GPL" 0 r0.2.1
    let fd := r1.1.1
    let r2 := bpf_report P kern test1 (if fd > 0 then 1 else 0) debug_mode r1.2.1
    some (test1, r2.1, r0.2.2 ++ r1.2.2 ++ r2.2 ++ (if fd > 0 then [Event.close fd] else []))

/-- The loop of `main` over the test table, in table order. -/
def main_loop {κ : Type} (P : Platform) (kern : Kernel κ) (debug_mode : Int) :
    List bpf_test → Sys κ → Option (List bpf_test × Sys κ × List Event)
  | [], s => some ([], s, [])
  | test :: rest, s =>
    match bpf_run_test P kern test debug_mode s with
    | none => none
    | some r =>
      match main_loop P kern debug_mode rest r.2.1 with
      | none => none
      | some r2 => some (r.1 :: r2.1, r2.2.1, r.2.2 ++ r2.2.2)

/-! ## Reading a run -/

/-- The `bpf()` calls of a run with their return values, in order. -/
def bpf_calls : List Event → List (bpf_request × Int)
  | [] => []
  | Event.bpf req ret :: es => (req, ret) :: bpf_calls es
  | _ :: es => bpf_calls es

/-- The handles passed to `close`, in order. -/
def closes : List Event → List Int
  | [] => []
  | Event.close fd :: es => fd :: closes es
  | _ :: es => closes es

/-- What a run writes to standard output, one entry per `printf`. -/
def stdout : List Event → List String
  | [] => []
  | Event.flag_line s :: es => s :: stdout es
  | Event.printf s :: es => s :: stdout es
  | _ :: es => stdout es

/-- The flag lines of a run, in order. -/
def flag_lines : List Event → List String
  | [] => []
  | Event.flag_line s :: es => s :: flag_lines es
  | _ :: es => flag_lines es

/-- Whether a request is a program load. -/
def is_prog_load : bpf_request → Bool
  | bpf_request.PROG_LOAD _ _ _ _ _ _ => true
  | _ => false

/-- Whether a request is a program load without a log buffer. -/
def is_logless_load : bpf_request → Bool
  | bpf_request.PROG_LOAD _ _ _ _ log_size _ => log_size == 0
  | _ => false

/-- The handles open after a run that started with the handles `fds` open: a
`bpf()` call that returns a non-negative value opens that handle, `close`
releases one. -/
def open_handles : List Int → List Event → List Int
  | fds, [] => fds
  | fds, Event.bpf _ ret :: es => open_handles (if 0 ≤ ret then ret :: fds else fds) es
  | fds, Event.close fd :: es => open_handles (fds.erase fd) es
  | fds, _ :: es => open_handles fds es

/-- The buffer after the stores of the given fixups with their handles, in
order. -/
def apply_patches (insns : List bpf_insn) (patches : List (bpf_map_fixup × Int)) :
    List bpf_insn :=
  patches.foldl (fun b p => (store_imm b p.1.off p.2).getD b) insns

/-- One turn of the fixup loop of `bpf_run_test` once the map creation for the
entry at offset `off` has returned `c`. -/
def fixups_step {κ : Type} (P : Platform) (kern : Kernel κ) (emits : String)
    (debug_mode : Int) (rest : List bpf_map_fixup) (insns : List bpf_insn)
    (c : Int × Sys κ × List Event) (off : Int) :
    Option (List bpf_insn × Sys κ × List Event) :=
  if c.1 < 0 then
    some (insns, c.2.1, c.2.2 ++
      (if debug_mode ≠ 0 then
        [Event.printf "#if 0\n",
         Event.printf (emits ++ ": bpf_map_create(): " ++ P.strerror c.2.1.errno ++ "\n"),
         Event.printf "#endif\n\n"]
       else []))
  else
    match store_imm insns off c.1 with
    | none => none
    | some insns1 =>
      match bpf_run_test_fixups P kern emits debug_mode rest insns1 c.2.1 with
      | none => none
      | some r2 => some (r2.1, r2.2.1, c.2.2 ++ r2.2.2)

/-- What `bpf_run_test` does after the fixup loop, on the patched descriptor:
the log-less load, the report, the release of the program handle. -/
def run_tail {κ : Type} (P : Platform) (kern : Kernel κ) (test1 : bpf_test)
    (debug_mode : Int) (s : Sys κ) : Sys κ × List Event :=
  let r1 := bpf_prog_load P kern test1.type test1.insns (bpf_test_length P test1.insns)
    "GPL" 0 s
  let r2 := bpf_report P kern test1 (if r1.1.1 > 0 then 1 else 0) debug_mode r1.2.1
  (r2.1, r1.2.2 ++ r2.2 ++ (if r1.1.1 > 0 then [Event.close r1.1.1] else []))

/-- The log-less load request `bpf_run_test` makes for a descriptor. -/
def load_request (P : Platform) (test1 : bpf_test) : bpf_request :=
  bpf_request.PROG_LOAD test1.type test1.insns (bpf_test_length P test1.insns) "GPL" 0 0

/-- The diagnostic load request `bpf_report` makes for a descriptor. -/
def diag_request (P : Platform) (test1 : bpf_test) : bpf_request :=
  bpf_request.PROG_LOAD test1.type test1.insns (bpf_test_length P test1.insns) "GPL"
    bpf_vlog_size 1

/-- The value the log-less load returns when it is made from state `s`. -/
def load_ret {κ : Type} (P : Platform) (kern : Kernel κ) (test1 : bpf_test) (s : Sys κ) : Int :=
  (sys_reply P kern s.kernel (load_request P test1)).1.ret

/-- The value the diagnostic load returns when it follows the log-less load
made from state `s`. -/
def diag_ret {κ : Type} (P : Platform) (kern : Kernel κ) (test1 : bpf_test) (s : Sys κ) : Int :=
  (sys_reply P kern (sys_reply P kern s.kernel (load_request P test1)).2
    (diag_request P test1)).1.ret

/-- The block `bpf_run_test` prints in verbose mode when a map creation fails. -/
def map_create_block (P : Platform) (emits : String) (errno : Int) : List String :=
  ["#if 0\n", emits ++ ": bpf_map_create(): " ++ P.strerror errno ++ "\n", "#endif\n\n"]

/-- The return values of the map-creation calls of a run, in order. -/
def map_create_rets (evs : List Event) : List Int :=
  ((bpf_calls evs).filter (fun c => !is_prog_load c.1)).map Prod.snd

/-- The handles a run obtained and did not get back from a positive program
load: those of map creations, and a program load that returned zero. -/
def kept_handles (evs : List Event) : List Int :=
  ((bpf_calls evs).filter
    (fun c => decide (0 ≤ c.2) && !(is_prog_load c.1 && decide (0 < c.2)))).map Prod.snd

/-- The fixup specs of a descriptor that stand before the sentinel. -/
def declared_fixups (fixup_map : List bpf_map_fixup) : List bpf_map_fixup :=
  fixup_map.takeWhile (fun m => decide (m.off ≠ 0))

/-- The map-creation request the runner builds for a fixup spec. -/
def create_request (m : bpf_map_fixup) : bpf_request :=
  bpf_request.MAP_CREATE m.type m.size_key m.size_val 1 m.flags

/-- A descriptor is well formed when its buffer has the capacity `BPF_MAXINSNS`,
its fixup array holds a sentinel, and every spec before the sentinel has its
offset inside the buffer. -/
def bpf_test.well_formed (P : Platform) (test : bpf_test) : Prop :=
  test.insns.length = P.BPF_MAXINSNS ∧
  (∃ m ∈ test.fixup_map, m.off = 0) ∧
  ∀ m ∈ declared_fixups test.fixup_map, 0 ≤ m.off ∧ m.off < (P.BPF_MAXINSNS : Int)

instance (P : Platform) (test : bpf_test) : Decidable (test.well_formed P) := by
  unfold bpf_test.well_formed; infer_instance

/-- The flag line for identifier `e`, active or commented out. -/
def flag_text (active : Bool) (e : String) : String :=
  (if active then "" else "// ") ++ "#define " ++ e ++ "\n\n"

/-- The events of `run_tail` when the log-less load returns `fd`, the
diagnostic load returns `fd2` and the diagnostic text is `m`. -/
def tail_events (P : Platform) (test1 : bpf_test) (debug_mode fd fd2 : Int) (m : String) :
    List Event :=
  [Event.bpf (load_request P test1) fd,
   Event.flag_line (flag_text (decide (0 < fd)) test1.emits)] ++
  (if ¬ 0 < fd ∨ debug_mode ≠ 0 then
    [Event.printf "#if 0\n",
     Event.printf (test1.emits ++ " " ++
       (if 0 < fd then "debug output" else "failed due to load error") ++ ": "),
     Event.bpf (diag_request P test1) fd2,
     Event.printf m,
     Event.printf "#endif\n\n"] ++ (if 0 < fd2 then [Event.close fd2] else [])
   else []) ++
  (match test1.warn with
   | some warn =>
     if ¬ 0 < fd then [Event.fprintf_stderr (test1.emits ++ ": " ++ warn ++ "\n")] else []
   | none => []) ++
  (if 0 < fd then [Event.close fd] else [])

/-! ## Sample inputs -/

/-- A platform with buffers of four instructions and the syscall available. -/
def P4 : Platform := ⟨4, some 321, 38, fun e => toString e⟩

/-- A platform with buffers of four instructions and no syscall number. -/
def P4_nosys : Platform := ⟨4, none, 38, fun e => toString e⟩

/-- A kernel that answers from a list of return values, one per call, and
fails with `-1` when the list is used up. -/
def script_kernel : Kernel (List Int)
  | [], _ => (⟨-1, 22, "end of script"⟩, [])
  | r :: rs, _ => (⟨r, 13, "log"⟩, rs)

/-- An instruction that is all zero but for its opcode and immediate. -/
def insn_of (code : Nat) (imm : Int) : bpf_insn := ⟨code, 0, 0, 0, imm⟩

/-- The fixup spec of offset `off` for a map of type 1 with 4-byte keys and
8-byte values. -/
def fixup_at (off : Int) : bpf_map_fixup := ⟨off, 1, 4, 8, 0⟩

/-- A descriptor with one instruction and one fixup at offset 2. -/
def test_one_fixup : bpf_test :=
  ⟨"HAVE_X", 1, [insn_of 183 0, insn_of 0 0, insn_of 0 0, insn_of 0 0],
   [fixup_at 2, fixup_at 0], none⟩

/-- A descriptor with three fixups, at offsets 1, 2 and 3. -/
def test_three_fixups : bpf_test :=
  ⟨"HAVE_Y", 2, [insn_of 183 0, insn_of 24 0, insn_of 24 0, insn_of 149 0],
   [fixup_at 1, fixup_at 2, fixup_at 3, fixup_at 0, fixup_at 1], some "no maps"⟩

/-- A kernel without state: map creation gives handle 3, a load is accepted
with handle 4 when the program type is 1 and rejected otherwise. -/
def fixed_kernel : Kernel Unit := fun _ req =>
  match req with
  | bpf_request.MAP_CREATE _ _ _ _ _ => (⟨3, 0, ""⟩, ())
  | bpf_request.PROG_LOAD ty _ _ _ _ _ =>
    if ty = 1 then (⟨4, 0, "ok"⟩, ()) else (⟨-1, 22, "unknown program type"⟩, ())

/-! ## The instruction-length resolver -/

theorem bpf_test_length_loop_le (insn : List bpf_insn) (n : Nat) :
    bpf_test_length_loop insn n ≤ n := by
  induction n with
  | zero => simp [bpf_test_length_loop]
  | succ n ih =>
    unfold bpf_test_length_loop
    split
    · exact le_rfl
    · exact Nat.le_succ_of_le ih

/-- The loop started at `n` ends at `k` when `k` is zero or a non-zero entry and
every entry above `k` up to `n` is zero. -/
theorem bpf_test_length_loop_eq (insn : List bpf_insn) (k n : Nat) (hkn : k ≤ n)
    (hnz : k = 0 ∨ (insn.getD k default).code ≠ 0 ∨ (insn.getD k default).imm ≠ 0)
    (hz : ∀ j, k < j → j ≤ n →
      (insn.getD j default).code = 0 ∧ (insn.getD j default).imm = 0) :
    bpf_test_length_loop insn n = k := by
  induction n with
  | zero =>
    have : k = 0 := Nat.le_zero.mp hkn
    subst this
    simp [bpf_test_length_loop]
  | succ n ih =>
    unfold bpf_test_length_loop
    rcases Nat.eq_or_lt_of_le hkn with h | h
    · subst h
      rcases hnz with h0 | h1
      · exact absurd h0 (Nat.succ_ne_zero n)
      · rw [if_pos h1]
    · have hz1 := hz (n + 1) h le_rfl
      rw [if_neg (fun h' => h'.elim (fun a => a hz1.1) (fun b => b hz1.2))]
      exact ih (Nat.lt_succ_iff.mp h) (fun j hj hjn => hz j hj (Nat.le_succ_of_le hjn))

/-- The length lies between 1 and the capacity, for a positive capacity. -/
theorem bpf_test_length_bounds (P : Platform) (insn : List bpf_insn)
    (hpos : 0 < P.BPF_MAXINSNS) :
    1 ≤ bpf_test_length P insn ∧ bpf_test_length P insn ≤ (P.BPF_MAXINSNS : Int) := by
  unfold bpf_test_length
  have hle := bpf_test_length_loop_le insn ((P.BPF_MAXINSNS : Int) - 1).toNat
  by_cases h : (0 : Int) < (P.BPF_MAXINSNS : Int) - 1
  · simp only [h, if_true]
    omega
  · simp only [h, if_false]
    omega

/-- The length is `k + 1` when `k` is zero or a non-zero entry and every entry
above `k` is zero. -/
theorem bpf_test_length_eq (P : Platform) (insn : List bpf_insn) (k : Nat)
    (hk : k < P.BPF_MAXINSNS)
    (hnz : k = 0 ∨ (insn.getD k default).code ≠ 0 ∨ (insn.getD k default).imm ≠ 0)
    (hz : ∀ j, k < j → j < P.BPF_MAXINSNS →
      (insn.getD j default).code = 0 ∧ (insn.getD j default).imm = 0) :
    bpf_test_length P insn = (k : Int) + 1 := by
  unfold bpf_test_length
  by_cases h : (0 : Int) < (P.BPF_MAXINSNS : Int) - 1
  · simp only [h, if_true]
    have := bpf_test_length_loop_eq insn k ((P.BPF_MAXINSNS : Int) - 1).toNat (by omega) hnz
      (fun j hj hjn => hz j hj (by omega))
    rw [this]
  · simp only [h, if_false]
    omega

/-- C1: in a buffer of capacity `BPF_MAXINSNS` whose last entry with a non-zero
opcode or immediate stands at index `k`, `bpf_test_length` returns `k + 1`.  At
`k = 0` this is the buffer whose only non-zero entry is the first one, for
which the result is 1. -/
theorem C1_bpf_test_length_last_nonzero (P : Platform) (insn : List bpf_insn) (k : Nat)
    (hcap : insn.length = P.BPF_MAXINSNS) (hk : k < insn.length)
    (hnz : (insn.getD k default).code ≠ 0 ∨ (insn.getD k default).imm ≠ 0)
    (hlast : ∀ j, k < j → j < insn.length →
      (insn.getD j default).code = 0 ∧ (insn.getD j default).imm = 0) :
    bpf_test_length P insn = (k : Int) + 1 :=
  bpf_test_length_eq P insn k (hcap ▸ hk) (Or.inr hnz) (fun j hj hjn => hlast j hj (hcap ▸ hjn))

/-- C1 at a buffer of four entries of which only the first is non-zero: the
result is 1. -/
theorem C1_witness :
    bpf_test_length P4 [insn_of 183 0, insn_of 0 0, insn_of 0 0, insn_of 0 0] = ((0 : Nat) : Int) + 1 :=
  C1_bpf_test_length_last_nonzero P4 [insn_of 183 0, insn_of 0 0, insn_of 0 0, insn_of 0 0] 0
    (by decide) (by decide) (by decide) (by
      intro j hj hjn
      have : j < 4 := hjn
      interval_cases j <;> decide)

/-- Reading a buffer whose entries are all zero gives a zero entry at every index. -/
theorem getD_zero_of_all_zero (insn : List bpf_insn)
    (hz : ∀ a ∈ insn, a.code = 0 ∧ a.imm = 0) (j : Nat) :
    (insn.getD j default).code = 0 ∧ (insn.getD j default).imm = 0 := by
  by_cases h : j < insn.length
  · rw [List.getD_eq_getElem insn default h]
    exact hz _ (List.getElem_mem h)
  · rw [List.getD_eq_default insn default (Nat.le_of_not_lt h)]
    exact ⟨rfl, rfl⟩

/-- C2 does not hold as stated: on a buffer of four entries that are all zero,
`bpf_test_length` does not return 0. -/
theorem C2_counterexample :
    (∀ a ∈ [insn_of 0 0, insn_of 0 0, insn_of 0 0, insn_of 0 0], a.code = 0 ∧ a.imm = 0) ∧
    bpf_test_length P4 [insn_of 0 0, insn_of 0 0, insn_of 0 0, insn_of 0 0] ≠ 0 := by
  decide

/-- C2, amended: on a non-empty buffer of capacity `BPF_MAXINSNS` in which every
entry has opcode zero and immediate zero, `bpf_test_length` returns 1; the
loop stops at index 0 without looking at it. -/
theorem C2_all_zero_length_one (P : Platform) (insn : List bpf_insn)
    (hcap : insn.length = P.BPF_MAXINSNS) (hpos : 0 < insn.length)
    (hz : ∀ a ∈ insn, a.code = 0 ∧ a.imm = 0) :
    bpf_test_length P insn = 1 := by
  have := bpf_test_length_eq P insn 0 (hcap ▸ hpos) (Or.inl rfl)
    (fun j _ _ => getD_zero_of_all_zero insn hz j)
  simpa using this

/-- C2, amended, at a buffer of four zero entries. -/
theorem C2_witness :
    bpf_test_length P4 [insn_of 0 0, insn_of 0 0, insn_of 0 0, insn_of 0 0] = 1 :=
  C2_all_zero_length_one P4 [insn_of 0 0, insn_of 0 0, insn_of 0 0, insn_of 0 0]
    (by decide) (by decide) (by decide)

/-! ## Events of the fixup loop and of the runner -/

/-- The `bpf()` calls of two runs in a row. -/
@[simp] theorem bpf_calls_append (a b : List Event) :
    bpf_calls (a ++ b) = bpf_calls a ++ bpf_calls b := by
  induction a with
  | nil => rfl
  | cons e a ih => cases e <;> simp [bpf_calls, ih]

/-- The closes of two runs in a row. -/
@[simp] theorem closes_append (a b : List Event) :
    closes (a ++ b) = closes a ++ closes b := by
  induction a with
  | nil => rfl
  | cons e a ih => cases e <;> simp [closes, ih]

/-- The standard output of two runs in a row. -/
@[simp] theorem stdout_append (a b : List Event) :
    stdout (a ++ b) = stdout a ++ stdout b := by
  induction a with
  | nil => rfl
  | cons e a ih => cases e <;> simp [stdout, ih]

/-- The flag lines of two runs in a row. -/
@[simp] theorem flag_lines_append (a b : List Event) :
    flag_lines (a ++ b) = flag_lines a ++ flag_lines b := by
  induction a with
  | nil => rfl
  | cons e a ih => cases e <;> simp [flag_lines, ih]

/-- The open handles after two runs in a row. -/
theorem open_handles_append (a b : List Event) (fds : List Int) :
    open_handles fds (a ++ b) = open_handles (open_handles fds a) b := by
  induction a generalizing fds with
  | nil => rfl
  | cons e a ih => cases e <;> simp [open_handles, ih]

/-- The store keeps the length of the buffer. -/
theorem store_imm_length (insns insns1 : List bpf_insn) (off fd : Int)
    (h : store_imm insns off fd = some insns1) : insns1.length = insns.length := by
  unfold store_imm at h
  split at h
  · cases h; simp
  · cases h

/-- The store succeeds at an offset inside the buffer. -/
theorem store_imm_some (insns : List bpf_insn) (off fd : Int)
    (h : 0 ≤ off ∧ off < insns.length) :
    ∃ insns1, store_imm insns off fd = some insns1 := by
  unfold store_imm
  rw [if_pos h]
  exact ⟨_, rfl⟩

/-- No spec stands before a sentinel at the head. -/
theorem declared_fixups_cons_zero (m : bpf_map_fixup) (rest : List bpf_map_fixup)
    (h : m.off = 0) : declared_fixups (m :: rest) = [] := by
  simp [declared_fixups, List.takeWhile, h]

/-- A head of non-zero offset is the first declared spec. -/
theorem declared_fixups_cons_ne (m : bpf_map_fixup) (rest : List bpf_map_fixup)
    (h : m.off ≠ 0) : declared_fixups (m :: rest) = m :: declared_fixups rest := by
  simp [declared_fixups, List.takeWhile, h]

/-- An element of all but the last of `a :: l` is `a` or in all but the last of `l`. -/
theorem mem_dropLast_cons (a x : Int) (l : List Int) (h : x ∈ (a :: l).dropLast) :
    x = a ∨ x ∈ l.dropLast := by
  cases l with
  | nil => simp at h
  | cons b l => simpa using h

/-- The one event of a map creation. -/
theorem bpf_map_create_events {κ : Type} (P : Platform) (kern : Kernel κ)
    (type size_key size_value max_elem flags : Nat) (s : Sys κ) :
    (bpf_map_create P kern type size_key size_value max_elem flags s).2.2 =
      [Event.bpf (bpf_request.MAP_CREATE type size_key size_value max_elem flags)
        (bpf_map_create P kern type size_key size_value max_elem flags s).1] := rfl

/-- The fixup loop on a terminated array with offsets inside the buffer: it
returns; its `bpf()` calls are the creations for an initial stretch of the
declared specs, all but the last non-negative, cut short only after a negative
return; the buffer is the declared one with the successful stores applied; it
closes nothing and prints no flag line, and prints the failure block only in
verbose mode after a failed creation. -/
theorem fixups_spec {κ : Type} (P : Platform) (kern : Kernel κ) (emits : String)
    (debug_mode : Int) (fm : List bpf_map_fixup) :
    ∀ (insns : List bpf_insn) (s : Sys κ),
    (∃ m ∈ fm, m.off = 0) →
    (∀ m ∈ declared_fixups fm, 0 ≤ m.off ∧ m.off < (insns.length : Int)) →
    ∃ r rets, bpf_run_test_fixups P kern emits debug_mode fm insns s = some r ∧
      rets.length ≤ (declared_fixups fm).length ∧
      bpf_calls r.2.2 = ((declared_fixups fm).map create_request).zip rets ∧
      (∀ x ∈ rets.dropLast, 0 ≤ x) ∧
      (rets.length < (declared_fixups fm).length → ∃ x, rets.getLast? = some x ∧ x < 0) ∧
      r.1 = apply_patches insns (((declared_fixups fm).zip rets).filter (fun p => 0 ≤ p.2)) ∧
      closes r.2.2 = [] ∧ flag_lines r.2.2 = [] ∧
      stdout r.2.2 = (if debug_mode ≠ 0 ∧ ∃ x ∈ rets, x < 0 then
        map_create_block P emits r.2.1.errno else []) := by
  induction fm with
  | nil => intro insns s h; simp at h
  | cons m rest ih =>
    intro insns s hsent hoff
    by_cases hm : m.off = 0
    · refine ⟨(insns, s, []), [], ?_, ?_⟩
      · simp [bpf_run_test_fixups, hm]
      · simp [declared_fixups_cons_zero m rest hm, bpf_calls, closes, flag_lines, stdout,
          apply_patches]
    · rw [declared_fixups_cons_ne m rest hm] at hoff ⊢
      have hsent1 : ∃ m1 ∈ rest, m1.off = 0 := by
        obtain ⟨m1, hm1, h0⟩ := hsent
        rcases List.mem_cons.mp hm1 with h | h
        · subst h; exact absurd h0 hm
        · exact ⟨m1, h, h0⟩
      have hev := bpf_map_create_events P kern m.type m.size_key m.size_val 1 m.flags s
      have hstep : bpf_run_test_fixups P kern emits debug_mode (m :: rest) insns s =
          fixups_step P kern emits debug_mode rest insns
            (bpf_map_create P kern m.type m.size_key m.size_val 1 m.flags s) m.off := by
        simp only [bpf_run_test_fixups, hm, if_false, fixups_step]
      rw [hstep]
      generalize bpf_map_create P kern m.type m.size_key m.size_val 1 m.flags s = c at hev
      obtain ⟨fd, s1, ev1⟩ := c
      simp only at hev
      subst hev
      by_cases hfd : fd < 0
      · refine ⟨(insns, s1, [Event.bpf (bpf_request.MAP_CREATE m.type m.size_key m.size_val 1
          m.flags) fd] ++ (if debug_mode ≠ 0 then
            [Event.printf "#if 0\n",
             Event.printf (emits ++ ": bpf_map_create(): " ++ P.strerror s1.errno ++ "\n"),
             Event.printf "#endif\n\n"]
           else [])), [fd], ?_, ?_⟩
        · simp only [fixups_step, hfd, if_true]
        · by_cases hd : debug_mode = 0
          · simp [hd, bpf_calls, closes, flag_lines, stdout, create_request, apply_patches, hfd]
          · simp [hd, bpf_calls, closes, flag_lines, stdout, create_request, apply_patches,
              map_create_block, hfd]
      · obtain ⟨insns1, h1⟩ := store_imm_some insns m.off fd (hoff m (List.mem_cons_self _ _))
        have hlen := store_imm_length _ _ _ _ h1
        obtain ⟨r2, rets2, hr2, hle, hcalls, hdl, hlast, hbuf, hcl, hfl, hout⟩ :=
          ih insns1 s1 hsent1
            (fun m1 hm1 => by rw [hlen]; exact hoff m1 (List.mem_cons_of_mem _ hm1))
        refine ⟨(r2.1, r2.2.1, [Event.bpf (bpf_request.MAP_CREATE m.type m.size_key m.size_val 1
          m.flags) fd] ++ r2.2.2), fd :: rets2, ?_, ?_, ?_, ?_, ?_, ?_, ?_, ?_, ?_⟩
        · simp only [fixups_step, hfd, if_false, h1, hr2]
        · simpa using hle
        · simp [hcalls, bpf_calls, create_request]
        · intro x hx
          rcases mem_dropLast_cons _ _ _ hx with h | h
          · rw [h]; exact not_lt.mp hfd
          · exact hdl x h
        · intro hlt
          obtain ⟨x, hx, hneg⟩ := hlast (by simpa using hlt)
          refine ⟨x, ?_, hneg⟩
          cases rets2 with
          | nil => simp at hx
          | cons b l => simpa [List.getLast?_cons_cons] using hx
        · simp only [List.zip_cons_cons, List.filter_cons, not_lt.mp hfd, decide_True, if_true,
            apply_patches, List.foldl_cons, h1, Option.getD_some]
          simpa [apply_patches] using hbuf
        · simp [hcl, closes]
        · simp [hfl, flag_lines]
        · simp only [stdout_append, hout]
          simp [stdout, hfd]


/-- The runner is the fixup loop followed by `run_tail` on the patched
descriptor. -/
theorem bpf_run_test_eq {κ : Type} (P : Platform) (kern : Kernel κ) (test : bpf_test)
    (debug_mode : Int) (s : Sys κ) (r0 : List bpf_insn × Sys κ × List Event)
    (h : bpf_run_test_fixups P kern test.emits debug_mode test.fixup_map test.insns s = some r0) :
    bpf_run_test P kern test debug_mode s =
      some ({ test with insns := r0.1 },
        (run_tail P kern { test with insns := r0.1 } debug_mode r0.2.1).1,
        r0.2.2 ++ (run_tail P kern { test with insns := r0.1 } debug_mode r0.2.1).2) := by
  simp only [bpf_run_test, h, run_tail, List.append_assoc]

/-- The `bpf()` calls, the closes, the flag line and the head of standard output
of `run_tail`. -/
theorem run_tail_spec {κ : Type} (P : Platform) (kern : Kernel κ) (test1 : bpf_test)
    (debug_mode : Int) (s : Sys κ) :
    bpf_calls (run_tail P kern test1 debug_mode s).2 =
      (load_request P test1, load_ret P kern test1 s) ::
        (if ¬ 0 < load_ret P kern test1 s ∨ debug_mode ≠ 0 then
          [(diag_request P test1, diag_ret P kern test1 s)] else []) ∧
    closes (run_tail P kern test1 debug_mode s).2 =
      (if (¬ 0 < load_ret P kern test1 s ∨ debug_mode ≠ 0) ∧ 0 < diag_ret P kern test1 s then
        [diag_ret P kern test1 s] else []) ++
        (if 0 < load_ret P kern test1 s then [load_ret P kern test1 s] else []) ∧
    flag_lines (run_tail P kern test1 debug_mode s).2 =
      [flag_text (decide (0 < load_ret P kern test1 s)) test1.emits] ∧
    ∃ post, stdout (run_tail P kern test1 debug_mode s).2 =
      flag_text (decide (0 < load_ret P kern test1 s)) test1.emits :: post := by
  cases hw : test1.warn <;>
  by_cases hfd : 0 < load_ret P kern test1 s <;>
  by_cases hd : debug_mode = 0 <;>
  by_cases hfd2 : 0 < diag_ret P kern test1 s <;>
  simp only [load_ret, diag_ret, load_request, diag_request, bpf_vlog_size, Nat.reducePow]
    at hfd hfd2 <;>
  simp [run_tail, bpf_report, bpf_prog_load, bpf, load_request, diag_request, load_ret, diag_ret,
    hfd, hfd2, hd, hw, bpf_calls, closes, flag_lines, stdout, flag_text, bpf_vlog_size]

/-! ## Claims about a single run -/

/-- What the fixup loop needs of a well-formed descriptor: a sentinel, and
declared offsets inside the buffer. -/
theorem well_formed_fixups (P : Platform) (test : bpf_test) (h : test.well_formed P) :
    (∃ m ∈ test.fixup_map, m.off = 0) ∧
    ∀ m ∈ declared_fixups test.fixup_map, 0 ≤ m.off ∧ m.off < (test.insns.length : Int) := by
  obtain ⟨h1, h2, h3⟩ := h
  exact ⟨h2, fun m hm => by rw [h1]; exact h3 m hm⟩

/-- A creation request is not a program load. -/
theorem zip_create_not_prog_load (fs : List bpf_map_fixup) (rets : List Int) :
    ∀ c ∈ (fs.map create_request).zip rets, is_prog_load c.1 = false := by
  intro c hc
  obtain ⟨a, b⟩ := c
  have := (List.of_mem_zip hc).1
  simp only [List.mem_map] at this
  obtain ⟨f, _, hf⟩ := this
  simp [← hf, create_request, is_prog_load]

/-- C3: for a well-formed descriptor, any verbose setting and any kernel,
`bpf_run_test` returns, issues a program load, and every program-load request
it issues (the log-less load and the diagnostic re-load of `bpf_report`)
carries a count `n` with `1 ≤ n ≤ BPF_MAXINSNS`. -/
theorem C3_load_count_in_range {κ : Type} (P : Platform) (kern : Kernel κ) (test : bpf_test)
    (debug_mode : Int) (s : Sys κ) (hpos : 0 < P.BPF_MAXINSNS) (hwf : test.well_formed P) :
    ∃ r, bpf_run_test P kern test debug_mode s = some r ∧
      (∃ c ∈ bpf_calls r.2.2, is_prog_load c.1 = true) ∧
      ∀ c ∈ bpf_calls r.2.2, ∀ ty B n lic ls lv,
        c.1 = bpf_request.PROG_LOAD ty B n lic ls lv → 1 ≤ n ∧ n ≤ (P.BPF_MAXINSNS : Int) := by
  obtain ⟨hs, ho⟩ := well_formed_fixups P test hwf
  obtain ⟨r0, rets, hr0, -, hcalls, -⟩ :=
    fixups_spec P kern test.emits debug_mode test.fixup_map test.insns s hs ho
  have htail := (run_tail_spec P kern { test with insns := r0.1 } debug_mode r0.2.1).1
  refine ⟨_, bpf_run_test_eq P kern test debug_mode s r0 hr0, ?_, ?_⟩
  · refine ⟨(load_request P { test with insns := r0.1 },
      load_ret P kern { test with insns := r0.1 } r0.2.1), ?_, rfl⟩
    simp [htail]
  · intro c hc ty B n lic ls lv hreq
    simp only [bpf_calls_append, List.mem_append, htail, List.mem_cons] at hc
    have hb := bpf_test_length_bounds P r0.1 hpos
    rcases hc with hc | hc | hc
    · have := zip_create_not_prog_load _ _ c (hcalls ▸ hc)
      simp [hreq, is_prog_load] at this
    · rw [hc] at hreq
      simp only [load_request, bpf_request.PROG_LOAD.injEq] at hreq
      rw [← hreq.2.2.1]; exact hb
    · split at hc
      · rw [List.mem_singleton.mp hc] at hreq
        simp only [diag_request, bpf_request.PROG_LOAD.injEq] at hreq
        rw [← hreq.2.2.1]; exact hb
      · simp at hc

/-- C3 at a descriptor with one fixup, in verbose mode. -/
theorem C3_witness :
    ∃ r, bpf_run_test P4 script_kernel test_one_fixup 1 ⟨[3, 0, 5], 0⟩ = some r ∧
      (∃ c ∈ bpf_calls r.2.2, is_prog_load c.1 = true) ∧
      ∀ c ∈ bpf_calls r.2.2, ∀ ty B n lic ls lv,
        c.1 = bpf_request.PROG_LOAD ty B n lic ls lv → 1 ≤ n ∧ n ≤ (P4.BPF_MAXINSNS : Int) :=
  C3_load_count_in_range P4 script_kernel test_one_fixup 1 ⟨[3, 0, 5], 0⟩ (by decide) (by decide)

/-- The active flag line. -/
theorem flag_text_true (e : String) : flag_text true e = "#define " ++ e ++ "\n\n" := by
  simp [flag_text]

/-- The commented-out flag line. -/
theorem flag_text_false (e : String) : flag_text false e = "// #define " ++ e ++ "\n\n" := by
  simp only [flag_text, Bool.false_eq_true, if_false]
  rw [show ("// #define " : String) = "// " ++ "#define " from by decide]

/-- The two forms of a flag line differ. -/
theorem flag_text_ne (e : String) : flag_text true e ≠ flag_text false e := by
  intro h
  have := congrArg String.length h
  simp [flag_text] at this
  exact absurd this (by decide)

/-- C4 does not hold as stated: in verbose mode, when the map creation fails,
the first thing written to standard output is the line `#if 0`, which is
neither form of the flag line. -/
theorem C4_counterexample :
    test_one_fixup.well_formed P4 ∧
    (bpf_run_test P4 script_kernel test_one_fixup 1 ⟨[-1, 5], 0⟩).map
      (fun r => (stdout r.2.2).head?) = some (some "#if 0\n") ∧
    "#if 0\n" ≠ "#define " ++ test_one_fixup.emits ++ "\n\n" ∧
    "#if 0\n" ≠ "// #define " ++ test_one_fixup.emits ++ "\n\n" := by
  decide

/-- No creation request is a log-less load. -/
theorem filter_zip_create_logless (fs : List bpf_map_fixup) (rets : List Int) :
    ((fs.map create_request).zip rets).filter (fun c => is_logless_load c.1) = [] := by
  rw [List.filter_eq_nil_iff]
  intro c hc
  obtain ⟨a, b⟩ := c
  have := (List.of_mem_zip hc).1
  simp only [List.mem_map] at this
  obtain ⟨f, _, hf⟩ := this
  simp [← hf, create_request, is_logless_load]

/-- Every creation request passes the filter for requests other than loads. -/
theorem filter_zip_create_not_load (fs : List bpf_map_fixup) (rets : List Int) :
    ((fs.map create_request).zip rets).filter (fun c => !is_prog_load c.1) =
      (fs.map create_request).zip rets := by
  rw [List.filter_eq_self]
  intro c hc
  simp [zip_create_not_prog_load fs rets c hc]

/-- The creation return values of a whole run are those of its fixup loop. -/
theorem map_create_rets_run {κ : Type} (P : Platform) (kern : Kernel κ) (test1 : bpf_test)
    (debug_mode : Int) (s1 : Sys κ) (evs : List Event) (fs : List bpf_map_fixup)
    (rets : List Int) (hle : rets.length ≤ fs.length)
    (hcalls : bpf_calls evs = (fs.map create_request).zip rets) :
    map_create_rets (evs ++ (run_tail P kern test1 debug_mode s1).2) = rets := by
  have htail := (run_tail_spec P kern test1 debug_mode s1).1
  simp only [map_create_rets, bpf_calls_append, List.filter_append, hcalls,
    filter_zip_create_not_load, htail, List.map_append]
  rw [List.map_snd_zip _ _ (by simpa using hle)]
  by_cases h : ¬0 < load_ret P kern test1 s1 ∨ debug_mode ≠ 0
  · simp [h, List.filter_cons, load_request, diag_request, is_prog_load]
  · simp [h, List.filter_cons, load_request, diag_request, is_prog_load]

/-- C4, amended: for a well-formed descriptor `bpf_run_test` writes exactly one
flag line; it is the active form when the log-less load returned a handle
`fd > 0` and the commented-out form otherwise; and what standard output holds
before it is nothing, except in verbose mode after a failed map creation,
where it is the three-chunk block that reports the failure. -/
theorem C4_flag_line {κ : Type} (P : Platform) (kern : Kernel κ) (test : bpf_test)
    (debug_mode : Int) (s : Sys κ) (hwf : test.well_formed P) :
    ∃ r fd errno post, bpf_run_test P kern test debug_mode s = some r ∧
      (bpf_calls r.2.2).filter (fun c => is_logless_load c.1) = [(load_request P r.1, fd)] ∧
      flag_lines r.2.2 = [flag_text (decide (0 < fd)) test.emits] ∧
      stdout r.2.2 =
        (if debug_mode ≠ 0 ∧ ∃ x ∈ map_create_rets r.2.2, x < 0 then
          map_create_block P test.emits errno else []) ++
        flag_text (decide (0 < fd)) test.emits :: post ∧
      (flag_text (decide (0 < fd)) test.emits = "#define " ++ test.emits ++ "\n\n" ↔ 0 < fd) ∧
      (flag_text (decide (0 < fd)) test.emits = "// #define " ++ test.emits ++ "\n\n" ↔
        ¬ 0 < fd) := by
  obtain ⟨hs, ho⟩ := well_formed_fixups P test hwf
  obtain ⟨r0, rets, hr0, hle, hcalls, -, -, -, -, hfl, hout⟩ :=
    fixups_spec P kern test.emits debug_mode test.fixup_map test.insns s hs ho
  obtain ⟨htail, -, hflt, post, hpost⟩ :=
    run_tail_spec P kern { test with insns := r0.1 } debug_mode r0.2.1
  have hrets : map_create_rets (r0.2.2 ++
      (run_tail P kern { test with insns := r0.1 } debug_mode r0.2.1).2) = rets := by
    exact map_create_rets_run P kern _ debug_mode _ _ _ rets hle hcalls
  refine ⟨_, load_ret P kern { test with insns := r0.1 } r0.2.1, r0.2.1.errno, post,
    bpf_run_test_eq P kern test debug_mode s r0 hr0, ?_, ?_, ?_, ?_, ?_⟩
  · simp only [bpf_calls_append, List.filter_append, hcalls, filter_zip_create_logless, htail,
      List.nil_append]
    by_cases h : ¬0 < load_ret P kern { test with insns := r0.1 } r0.2.1 ∨ debug_mode ≠ 0
    · simp [h, List.filter_cons, load_request, diag_request, bpf_vlog_size, is_logless_load]
    · simp [h, List.filter_cons, load_request, diag_request, bpf_vlog_size, is_logless_load]
  · simp [hfl, hflt]
  · simp only [stdout_append, hout, hpost, hrets]
  · by_cases h : 0 < load_ret P kern { test with insns := r0.1 } r0.2.1
    · simp [h, flag_text_true]
    · simp only [h, decide_False, iff_false]
      rw [← flag_text_true]
      exact fun h' => flag_text_ne _ h'.symm
  · by_cases h : 0 < load_ret P kern { test with insns := r0.1 } r0.2.1
    · simp only [h, decide_True, not_true, iff_false]
      rw [← flag_text_false]
      exact flag_text_ne _
    · simp [h, flag_text_false]

/-- C4, amended, in verbose mode with a failing map creation. -/
theorem C4_witness :
    ∃ r fd errno post,
      bpf_run_test P4 script_kernel test_one_fixup 1 ⟨[-1, 5], 0⟩ = some r ∧
      (bpf_calls r.2.2).filter (fun c => is_logless_load c.1) = [(load_request P4 r.1, fd)] ∧
      flag_lines r.2.2 = [flag_text (decide (0 < fd)) test_one_fixup.emits] ∧
      stdout r.2.2 =
        (if (1 : Int) ≠ 0 ∧ ∃ x ∈ map_create_rets r.2.2, x < 0 then
          map_create_block P4 test_one_fixup.emits errno else []) ++
        flag_text (decide (0 < fd)) test_one_fixup.emits :: post ∧
      (flag_text (decide (0 < fd)) test_one_fixup.emits =
        "#define " ++ test_one_fixup.emits ++ "\n\n" ↔ 0 < fd) ∧
      (flag_text (decide (0 < fd)) test_one_fixup.emits =
        "// #define " ++ test_one_fixup.emits ++ "\n\n" ↔ ¬ 0 < fd) :=
  C4_flag_line P4 script_kernel test_one_fixup 1 ⟨[-1, 5], 0⟩ (by decide)

/-- C6: for a well-formed descriptor the `bpf()` calls of `bpf_run_test` are, in
order: map creations for an initial stretch of the specs before the sentinel,
each with that spec's type, key size, value size and flags and with capacity
1; then the log-less program load; then at most program loads that carry a
log buffer.  Every creation but the last returned a non-negative value, and
the stretch ends before the last spec only after a negative return. -/
theorem C6_fixups_in_order {κ : Type} (P : Platform) (kern : Kernel κ) (test : bpf_test)
    (debug_mode : Int) (s : Sys κ) (hwf : test.well_formed P) :
    ∃ r rets fd more, bpf_run_test P kern test debug_mode s = some r ∧
      bpf_calls r.2.2 =
        ((declared_fixups test.fixup_map).map
          (fun f => bpf_request.MAP_CREATE f.type f.size_key f.size_val 1 f.flags)).zip rets ++
        (load_request P r.1, fd) :: more ∧
      rets.length ≤ (declared_fixups test.fixup_map).length ∧
      (∀ x ∈ rets.dropLast, 0 ≤ x) ∧
      (rets.length < (declared_fixups test.fixup_map).length →
        ∃ x, rets.getLast? = some x ∧ x < 0) ∧
      is_logless_load (load_request P r.1) = true ∧
      ∀ c ∈ more, is_prog_load c.1 = true ∧ is_logless_load c.1 = false := by
  obtain ⟨hs, ho⟩ := well_formed_fixups P test hwf
  obtain ⟨r0, rets, hr0, hle, hcalls, hdl, hlast, -⟩ :=
    fixups_spec P kern test.emits debug_mode test.fixup_map test.insns s hs ho
  have htail := (run_tail_spec P kern { test with insns := r0.1 } debug_mode r0.2.1).1
  refine ⟨_, rets, load_ret P kern { test with insns := r0.1 } r0.2.1,
    (if ¬ 0 < load_ret P kern { test with insns := r0.1 } r0.2.1 ∨ debug_mode ≠ 0 then
      [(diag_request P { test with insns := r0.1 },
        diag_ret P kern { test with insns := r0.1 } r0.2.1)] else []),
    bpf_run_test_eq P kern test debug_mode s r0 hr0, ?_, hle, hdl, hlast, ?_, ?_⟩
  · simp only [bpf_calls_append, hcalls, htail]
    rfl
  · simp [load_request, is_logless_load]
  · intro c hc
    split at hc
    · rw [List.mem_singleton.mp hc]
      simp [diag_request, is_prog_load, is_logless_load, bpf_vlog_size]
    · simp at hc

/-- C6 at a descriptor with three fixups of which the second fails. -/
theorem C6_witness :
    ∃ r rets fd more, bpf_run_test P4 script_kernel test_three_fixups 1 ⟨[3, -1, 5], 0⟩ = some r ∧
      bpf_calls r.2.2 =
        ((declared_fixups test_three_fixups.fixup_map).map
          (fun f => bpf_request.MAP_CREATE f.type f.size_key f.size_val 1 f.flags)).zip rets ++
        (load_request P4 r.1, fd) :: more ∧
      rets.length ≤ (declared_fixups test_three_fixups.fixup_map).length ∧
      (∀ x ∈ rets.dropLast, 0 ≤ x) ∧
      (rets.length < (declared_fixups test_three_fixups.fixup_map).length →
        ∃ x, rets.getLast? = some x ∧ x < 0) ∧
      is_logless_load (load_request P4 r.1) = true ∧
      ∀ c ∈ more, is_prog_load c.1 = true ∧ is_logless_load c.1 = false :=
  C6_fixups_in_order P4 script_kernel test_three_fixups 1 ⟨[3, -1, 5], 0⟩ (by decide)

/-- Without a `close`, a run opens every non-negative return value. -/
theorem open_handles_no_close (evs : List Event) :
    ∀ fds : List Int, closes evs = [] →
    open_handles fds evs =
      (((bpf_calls evs).filter (fun c => decide (0 ≤ c.2))).map Prod.snd).reverse ++ fds := by
  induction evs with
  | nil => intro fds _; rfl
  | cons e evs ih =>
    intro fds h
    cases e with
    | bpf req ret =>
      simp only [closes] at h
      by_cases hr : 0 ≤ ret
      · simp [open_handles, bpf_calls, hr, ih _ h, List.filter_cons]
      · simp [open_handles, bpf_calls, hr, ih _ h, List.filter_cons]
    | close fd => simp [closes] at h
    | flag_line t => simpa [open_handles, bpf_calls] using ih fds (by simpa [closes] using h)
    | printf t => simpa [open_handles, bpf_calls] using ih fds (by simpa [closes] using h)
    | fprintf_stderr t =>
      simpa [open_handles, bpf_calls] using ih fds (by simpa [closes] using h)

/-- The kept handles of two runs in a row. -/
theorem kept_handles_append (a b : List Event) :
    kept_handles (a ++ b) = kept_handles a ++ kept_handles b := by
  simp [kept_handles]

/-- The events of `run_tail`, spelled out. -/
theorem run_tail_events {κ : Type} (P : Platform) (kern : Kernel κ) (test1 : bpf_test)
    (debug_mode : Int) (s : Sys κ) :
    ∃ m, (run_tail P kern test1 debug_mode s).2 =
      tail_events P test1 debug_mode (load_ret P kern test1 s) (diag_ret P kern test1 s) m := by
  refine ⟨P.strerror (bpf_prog_load P kern test1.type test1.insns (bpf_test_length P test1.insns)
      "GPL" bpf_vlog_size (bpf_prog_load P kern test1.type test1.insns
        (bpf_test_length P test1.insns) "GPL" 0 s).2.1).2.1.errno ++ "\n" ++
    (bpf_prog_load P kern test1.type test1.insns (bpf_test_length P test1.insns)
      "GPL" bpf_vlog_size (bpf_prog_load P kern test1.type test1.insns
        (bpf_test_length P test1.insns) "GPL" 0 s).2.1).1.2, ?_⟩
  cases hw : test1.warn <;>
  by_cases hfd : 0 < load_ret P kern test1 s <;>
  by_cases hd : debug_mode = 0 <;>
  simp only [load_ret, diag_ret, load_request, diag_request, bpf_vlog_size, Nat.reducePow]
    at hfd <;>
  simp [run_tail, tail_events, bpf_report, bpf_prog_load, bpf, load_request, diag_request,
    load_ret, diag_ret, hfd, hd, hw, flag_text, bpf_vlog_size]

/-- After `run_tail` the open handles are the earlier ones and the kept ones. -/
theorem open_handles_tail_events (P : Platform) (test1 : bpf_test) (debug_mode fd fd2 : Int)
    (m : String) (fds : List Int) :
    open_handles fds (tail_events P test1 debug_mode fd fd2 m) =
      (kept_handles (tail_events P test1 debug_mode fd fd2 m)).reverse ++ fds := by
  have hl : is_prog_load (load_request P test1) = true := rfl
  have hg : is_prog_load (diag_request P test1) = true := rfl
  cases hw : test1.warn <;>
  rcases lt_trichotomy 0 fd with hfd | hfd | hfd <;>
  by_cases hd : debug_mode = 0 <;>
  rcases lt_trichotomy 0 fd2 with hfd2 | hfd2 | hfd2 <;>
  (try subst hfd) <;>
  (try subst hfd2) <;>
  simp [tail_events, open_handles, kept_handles, bpf_calls, hl, hg, hw, hd, List.filter_cons, *,
    le_of_lt, not_lt_of_lt, not_le_of_lt, ne_of_gt, ne_of_lt]

/-- In the fixup loop every non-negative return value is kept. -/
theorem kept_handles_fixups (evs : List Event) (fs : List bpf_map_fixup) (rets : List Int)
    (hcalls : bpf_calls evs = (fs.map create_request).zip rets) :
    kept_handles evs = ((bpf_calls evs).filter (fun c => decide (0 ≤ c.2))).map Prod.snd := by
  unfold kept_handles
  congr 1
  apply List.filter_congr
  intro c hc
  rw [hcalls] at hc
  simp [zip_create_not_prog_load fs rets c hc]

/-- C7 does not hold as stated: with one successful map creation (handle 3) and
a successful load (handle 4), only handle 4 is closed and handle 3 is still
open when `bpf_run_test` returns. -/
theorem C7_counterexample :
    test_one_fixup.well_formed P4 ∧
    (bpf_run_test P4 script_kernel test_one_fixup 0 ⟨[3, 4], 0⟩).map
      (fun r => (bpf_calls r.2.2, closes r.2.2, open_handles [] r.2.2)) =
      some ([(bpf_request.MAP_CREATE 1 4 8 1 0, 3),
             (bpf_request.PROG_LOAD 1
               [insn_of 183 0, insn_of 0 0, insn_of 0 3, insn_of 0 0] 3 "GPL" 0 0, 4)],
            [4], [3]) ∧
    (bpf_run_test P4 script_kernel test_one_fixup 0 ⟨[3, 4], 0⟩).map
      (fun r => decide (open_handles [] r.2.2 = [])) = some false := by
  decide

/-- C7, amended: for a well-formed descriptor the handles `bpf_run_test` closes
are exactly the positive handles its program loads returned (the
classification load and the diagnostic re-load); map handles are never
closed, so the handles open afterwards are those open before together with
every handle obtained and not closed (`kept_handles`), among them every map
handle. -/
theorem C7_program_handles_closed {κ : Type} (P : Platform) (kern : Kernel κ) (test : bpf_test)
    (debug_mode : Int) (s : Sys κ) (fds : List Int) (hwf : test.well_formed P) :
    ∃ r, bpf_run_test P kern test debug_mode s = some r ∧
      (closes r.2.2).Perm
        (((bpf_calls r.2.2).filter
          (fun c => is_prog_load c.1 && decide (0 < c.2))).map Prod.snd) ∧
      (open_handles fds r.2.2).Perm (kept_handles r.2.2 ++ fds) ∧
      ∀ c ∈ bpf_calls r.2.2, is_prog_load c.1 = false → 0 ≤ c.2 →
        c.2 ∈ open_handles fds r.2.2 := by
  obtain ⟨hs, ho⟩ := well_formed_fixups P test hwf
  obtain ⟨r0, rets, hr0, hle, hcalls, -, -, -, hcl, -, -⟩ :=
    fixups_spec P kern test.emits debug_mode test.fixup_map test.insns s hs ho
  obtain ⟨htail, hclt, -, -⟩ := run_tail_spec P kern { test with insns := r0.1 } debug_mode r0.2.1
  obtain ⟨m, hm⟩ := run_tail_events P kern { test with insns := r0.1 } debug_mode r0.2.1
  have hperm : (open_handles fds (r0.2.2 ++
      (run_tail P kern { test with insns := r0.1 } debug_mode r0.2.1).2)).Perm
      (kept_handles (r0.2.2 ++
        (run_tail P kern { test with insns := r0.1 } debug_mode r0.2.1).2) ++ fds) := by
    rw [open_handles_append, open_handles_no_close r0.2.2 fds hcl, kept_handles_append,
      ← kept_handles_fixups r0.2.2 _ rets hcalls, hm, open_handles_tail_events,
      ← List.append_assoc]
    refine List.Perm.append_right fds ?_
    exact (List.perm_append_comm).trans
      (List.Perm.append (List.reverse_perm _) (List.reverse_perm _))
  refine ⟨_, bpf_run_test_eq P kern test debug_mode s r0 hr0, ?_, hperm, ?_⟩
  · have hz : ((List.map create_request (declared_fixups test.fixup_map)).zip rets).filter
        (fun c => is_prog_load c.1 && decide (0 < c.2)) = [] := by
      rw [List.filter_eq_nil_iff]
      intro c hc
      simp [zip_create_not_prog_load _ rets c hc]
    simp only [closes_append, hcl, hclt, bpf_calls_append, List.filter_append, hcalls, hz, htail,
      List.nil_append]
    by_cases h1 : 0 < load_ret P kern { test with insns := r0.1 } r0.2.1 <;>
    by_cases h2 : debug_mode = 0 <;>
    by_cases h3 : 0 < diag_ret P kern { test with insns := r0.1 } r0.2.1 <;>
    simp [h1, h2, h3, List.filter_cons, load_request, diag_request, is_prog_load]
    exact List.Perm.swap _ _ _
  · intro c hc hnl hnn
    refine hperm.symm.subset (List.mem_append_left _ ?_)
    simp only [kept_handles, List.mem_map, List.mem_filter]
    exact ⟨c, ⟨hc, by simp [hnl, hnn]⟩, rfl⟩

/-- C7, amended, at a run with a successful map creation and two successful
loads. -/
theorem C7_witness :
    ∃ r, bpf_run_test P4 script_kernel test_one_fixup 1 ⟨[3, 4, 5], 0⟩ = some r ∧
      (closes r.2.2).Perm
        (((bpf_calls r.2.2).filter
          (fun c => is_prog_load c.1 && decide (0 < c.2))).map Prod.snd) ∧
      (open_handles [0, 1, 2] r.2.2).Perm (kept_handles r.2.2 ++ [0, 1, 2]) ∧
      ∀ c ∈ bpf_calls r.2.2, is_prog_load c.1 = false → 0 ≤ c.2 →
        c.2 ∈ open_handles [0, 1, 2] r.2.2 :=
  C7_program_handles_closed P4 script_kernel test_one_fixup 1 ⟨[3, 4, 5], 0⟩ [0, 1, 2] (by decide)

/-! ## The patched buffer -/

theorem store_imm_getD (insns insns1 : List bpf_insn) (off fd : Int)
    (h : store_imm insns off fd = some insns1) (i : Nat) (hi : i < insns.length) :
    insns1.getD i default =
      if off = (i : Int) then { insns.getD i default with imm := fd }
      else insns.getD i default := by
  unfold store_imm at h
  split at h
  · rename_i hv
    cases h
    simp only [List.getD_eq_getElem?_getD, List.getElem?_set]
    by_cases hoi : off = (i : Int)
    · have : off.toNat = i := by omega
      simp [hoi, hi]
    · have : off.toNat ≠ i := by omega
      simp [hoi, this]
  · cases h

/-- Reading the buffer after a list of stores inside the buffer: the immediate at
index `i` is the handle of the last store at `i`, every other field is kept. -/
theorem apply_patches_spec (insns : List bpf_insn) (ps : List (bpf_map_fixup × Int)) :
    (∀ p ∈ ps, 0 ≤ p.1.off ∧ p.1.off < (insns.length : Int)) →
    (apply_patches insns ps).length = insns.length ∧
    ∀ i, i < insns.length →
      (apply_patches insns ps).getD i default =
        { insns.getD i default with
          imm := (((ps.filter (fun p => decide (p.1.off = (i : Int)))).getLast?).map
            Prod.snd).getD (insns.getD i default).imm } := by
  induction ps using List.reverseRecOn with
  | nil => intro _; exact ⟨rfl, fun i _ => rfl⟩
  | append_singleton l p ih =>
    intro hv
    obtain ⟨hlen, hget⟩ := ih (fun q hq => hv q (List.mem_append_left _ hq))
    have hp := hv p (List.mem_append_right _ (List.mem_singleton_self p))
    obtain ⟨B1, hB1⟩ := store_imm_some (apply_patches insns l) p.1.off p.2 (by rw [hlen]; exact hp)
    have hB1len := store_imm_length _ _ _ _ hB1
    have happ : apply_patches insns (l ++ [p]) = B1 := by
      simp only [apply_patches, List.foldl_append, List.foldl_cons, List.foldl_nil] at hB1 ⊢
      rw [hB1]; rfl
    rw [happ]
    refine ⟨by rw [hB1len, hlen], fun i hi => ?_⟩
    rw [store_imm_getD _ _ _ _ hB1 i (by rw [hlen]; exact hi), hget i hi]
    by_cases hoi : p.1.off = (i : Int)
    · simp [hoi, List.filter_append, List.filter_cons]
    · simp [hoi, List.filter_append, List.filter_cons]

/-- The successful fixups are among the declared ones, so their offsets lie
inside the buffer. -/
theorem mem_filter_zip_valid (fs : List bpf_map_fixup) (rets : List Int) (n : Int)
    (ho : ∀ m ∈ fs, 0 ≤ m.off ∧ m.off < n) :
    ∀ p ∈ (fs.zip rets).filter (fun p => decide (0 ≤ p.2)), 0 ≤ p.1.off ∧ p.1.off < n := by
  intro p hp
  obtain ⟨a, b⟩ := p
  exact ho a (List.of_mem_zip (List.mem_of_mem_filter hp)).1

/-- The runner on a well-formed descriptor: every program load sees the final
buffer with the count `bpf_test_length` gives for it, and the final buffer is
the declared one with the immediates of the successful fixups stored. -/
theorem bpf_run_test_buffer {κ : Type} (P : Platform) (kern : Kernel κ)
    (test : bpf_test) (debug_mode : Int) (s : Sys κ) (hwf : test.well_formed P) :
    ∃ r, bpf_run_test P kern test debug_mode s = some r ∧
      (∀ c ∈ bpf_calls r.2.2, ∀ ty B n lic ls lv,
        c.1 = bpf_request.PROG_LOAD ty B n lic ls lv →
          B = r.1.insns ∧ n = bpf_test_length P r.1.insns) ∧
      r.1.insns.length = test.insns.length ∧
      ∀ i, i < test.insns.length →
        (r.1.insns.getD i default).code = (test.insns.getD i default).code ∧
        (r.1.insns.getD i default).dst_reg = (test.insns.getD i default).dst_reg ∧
        (r.1.insns.getD i default).src_reg = (test.insns.getD i default).src_reg ∧
        (r.1.insns.getD i default).off = (test.insns.getD i default).off ∧
        (r.1.insns.getD i default).imm =
          ((((((declared_fixups test.fixup_map).zip (map_create_rets r.2.2)).filter
            (fun p => decide (0 ≤ p.2))).filter
              (fun p => decide (p.1.off = (i : Int)))).getLast?).map Prod.snd).getD
            (test.insns.getD i default).imm := by
  obtain ⟨hs, ho⟩ := well_formed_fixups P test hwf
  obtain ⟨r0, rets, hr0, hle, hcalls, -, -, hbuf, -⟩ :=
    fixups_spec P kern test.emits debug_mode test.fixup_map test.insns s hs ho
  have htail := (run_tail_spec P kern { test with insns := r0.1 } debug_mode r0.2.1).1
  have hrets := map_create_rets_run P kern { test with insns := r0.1 } debug_mode r0.2.1
    r0.2.2 _ rets hle hcalls
  obtain ⟨hlen, hget⟩ := apply_patches_spec test.insns
    (((declared_fixups test.fixup_map).zip rets).filter (fun p => decide (0 ≤ p.2)))
    (mem_filter_zip_valid _ rets _ ho)
  refine ⟨_, bpf_run_test_eq P kern test debug_mode s r0 hr0, ?_, ?_, ?_⟩
  · intro c hc ty B n lic ls lv hreq
    simp only [bpf_calls_append, List.mem_append, htail, List.mem_cons] at hc
    rcases hc with hc | hc | hc
    · have := zip_create_not_prog_load _ _ c (hcalls ▸ hc)
      simp [hreq, is_prog_load] at this
    · rw [hc] at hreq
      simp only [load_request, bpf_request.PROG_LOAD.injEq] at hreq
      exact ⟨hreq.2.1.symm, hreq.2.2.1.symm⟩
    · split at hc
      · rw [List.mem_singleton.mp hc] at hreq
        simp only [diag_request, bpf_request.PROG_LOAD.injEq] at hreq
        exact ⟨hreq.2.1.symm, hreq.2.2.1.symm⟩
      · simp at hc
  · show r0.1.length = _
    rw [hbuf, hlen]
  · intro i hi
    show (r0.1.getD i default).code = _ ∧ _
    simp only [hrets]
    rw [hbuf, hget i hi]
    exact ⟨rfl, rfl, rfl, rfl, rfl⟩

/-- C8: for a well-formed descriptor every program load of `bpf_run_test` sees
the buffer the call leaves in the descriptor; that buffer has the declared
length, every entry keeps its opcode, registers and offset, and the immediate
at index `i` is the handle of the last successful fixup with offset `i`, or
the declared immediate when there is none. -/
theorem C8_only_immediates_patched {κ : Type} (P : Platform) (kern : Kernel κ)
    (test : bpf_test) (debug_mode : Int) (s : Sys κ) (hwf : test.well_formed P) :
    ∃ r, bpf_run_test P kern test debug_mode s = some r ∧
      (∀ c ∈ bpf_calls r.2.2, ∀ ty B n lic ls lv,
        c.1 = bpf_request.PROG_LOAD ty B n lic ls lv → B = r.1.insns) ∧
      r.1.insns.length = test.insns.length ∧
      ∀ i, i < test.insns.length →
        (r.1.insns.getD i default).code = (test.insns.getD i default).code ∧
        (r.1.insns.getD i default).dst_reg = (test.insns.getD i default).dst_reg ∧
        (r.1.insns.getD i default).src_reg = (test.insns.getD i default).src_reg ∧
        (r.1.insns.getD i default).off = (test.insns.getD i default).off ∧
        (r.1.insns.getD i default).imm =
          ((((((declared_fixups test.fixup_map).zip (map_create_rets r.2.2)).filter
            (fun p => decide (0 ≤ p.2))).filter
              (fun p => decide (p.1.off = (i : Int)))).getLast?).map Prod.snd).getD
            (test.insns.getD i default).imm := by
  obtain ⟨r, hr, hB, hlen, hget⟩ := bpf_run_test_buffer P kern test debug_mode s hwf
  exact ⟨r, hr, fun c hc ty B n lic ls lv hreq => (hB c hc ty B n lic ls lv hreq).1, hlen, hget⟩

/-- C8 at a descriptor with three fixups of which the third fails. -/
theorem C8_witness :
    ∃ r, bpf_run_test P4 script_kernel test_three_fixups 1 ⟨[3, 7, -1, 5], 0⟩ = some r ∧
      (∀ c ∈ bpf_calls r.2.2, ∀ ty B n lic ls lv,
        c.1 = bpf_request.PROG_LOAD ty B n lic ls lv → B = r.1.insns) ∧
      r.1.insns.length = test_three_fixups.insns.length ∧
      ∀ i, i < test_three_fixups.insns.length →
        (r.1.insns.getD i default).code = (test_three_fixups.insns.getD i default).code ∧
        (r.1.insns.getD i default).dst_reg = (test_three_fixups.insns.getD i default).dst_reg ∧
        (r.1.insns.getD i default).src_reg = (test_three_fixups.insns.getD i default).src_reg ∧
        (r.1.insns.getD i default).off = (test_three_fixups.insns.getD i default).off ∧
        (r.1.insns.getD i default).imm =
          ((((((declared_fixups test_three_fixups.fixup_map).zip (map_create_rets r.2.2)).filter
            (fun p => decide (0 ≤ p.2))).filter
              (fun p => decide (p.1.off = (i : Int)))).getLast?).map Prod.snd).getD
            (test_three_fixups.insns.getD i default).imm :=
  C8_only_immediates_patched P4 script_kernel test_three_fixups 1 ⟨[3, 7, -1, 5], 0⟩ (by decide)

/-- The loop started at or above a non-zero entry `k` ends at or above `k`. -/
theorem bpf_test_length_loop_ge (insn : List bpf_insn) (k n : Nat) (hkn : k ≤ n)
    (hnz : (insn.getD k default).code ≠ 0 ∨ (insn.getD k default).imm ≠ 0) :
    k ≤ bpf_test_length_loop insn n := by
  induction n with
  | zero => exact le_trans hkn (Nat.zero_le _)
  | succ n ih =>
    unfold bpf_test_length_loop
    split
    · exact hkn
    · rename_i hc
      rcases Nat.eq_or_lt_of_le hkn with h | h
      · subst h; exact absurd hnz hc
      · exact ih (Nat.lt_succ_iff.mp h)

/-- The length is at least `k + 1` for a non-zero entry `k`. -/
theorem bpf_test_length_ge (P : Platform) (insn : List bpf_insn) (k : Nat)
    (hk : k < P.BPF_MAXINSNS)
    (hnz : (insn.getD k default).code ≠ 0 ∨ (insn.getD k default).imm ≠ 0) :
    (k : Int) + 1 ≤ bpf_test_length P insn := by
  unfold bpf_test_length
  by_cases h : (0 : Int) < (P.BPF_MAXINSNS : Int) - 1
  · simp only [h, if_true]
    have := bpf_test_length_loop_ge insn k ((P.BPF_MAXINSNS : Int) - 1).toNat (by omega) hnz
    omega
  · simp only [h, if_false]
    omega

/-- C10: when the last successful fixup at offset `k < BPF_MAXINSNS` stored a
non-zero handle, the length `bpf_test_length` computes on the patched buffer,
and so the count of every program load, is at least `k + 1`.  The count can
exceed the length of the buffer as declared: a descriptor with one
instruction and a fixup at offset 2 is loaded with a larger count. -/
theorem C10_patched_inside_body {κ : Type} (P : Platform) (kern : Kernel κ) (test : bpf_test)
    (debug_mode : Int) (s : Sys κ) (r : bpf_test × Sys κ × List Event) (k : Nat)
    (f : bpf_map_fixup) (fd : Int)
    (hwf : test.well_formed P)
    (hrun : bpf_run_test P kern test debug_mode s = some r)
    (hk2 : k < P.BPF_MAXINSNS)
    (hlast : ((((declared_fixups test.fixup_map).zip (map_create_rets r.2.2)).filter
        (fun p => decide (0 ≤ p.2))).filter
          (fun p => decide (p.1.off = (k : Int)))).getLast? = some (f, fd))
    (hfd : fd ≠ 0) :
    ((k : Int) + 1 ≤ bpf_test_length P r.1.insns ∧
      ∀ c ∈ bpf_calls r.2.2, ∀ ty B n lic ls lv,
        c.1 = bpf_request.PROG_LOAD ty B n lic ls lv → (k : Int) + 1 ≤ n) ∧
    ∃ t0 s0 r0 fd0, t0.well_formed P4 ∧ bpf_run_test P4 script_kernel t0 0 s0 = some r0 ∧
      (bpf_request.PROG_LOAD t0.type r0.1.insns (bpf_test_length P4 r0.1.insns) "GPL" 0 0, fd0) ∈
        bpf_calls r0.2.2 ∧
      bpf_test_length P4 t0.insns < bpf_test_length P4 r0.1.insns := by
  obtain ⟨r', hr', hB, hlen, hget⟩ := bpf_run_test_buffer P kern test debug_mode s hwf
  have hrr : r' = r := Option.some.inj (hr'.symm.trans hrun)
  subst hrr
  have hk : k < test.insns.length := by rw [hwf.1]; exact hk2
  have himm : (r'.1.insns.getD k default).imm = fd := by
    rw [(hget k hk).2.2.2.2, hlast]
    rfl
  have hge := bpf_test_length_ge P r'.1.insns k hk2 (Or.inr (himm ▸ hfd))
  refine ⟨⟨hge, fun c hc ty B n lic ls lv hreq => ?_⟩, ?_⟩
  · rw [(hB c hc ty B n lic ls lv hreq).2]; exact hge
  · exact ⟨test_one_fixup, ⟨[3, 4], 0⟩,
      (bpf_run_test P4 script_kernel test_one_fixup 0 ⟨[3, 4], 0⟩).get (by decide), 4,
      by decide, by simp, by decide, by decide⟩

/-- C10 at a descriptor whose fixup at offset 2 receives handle 7. -/
theorem C10_witness :
    ((2 : Nat) + 1 ≤ bpf_test_length P4
        ((bpf_run_test P4 script_kernel test_three_fixups 1 ⟨[3, 7, -1, 5], 0⟩).get
          (by decide)).1.insns ∧
      ∀ c ∈ bpf_calls ((bpf_run_test P4 script_kernel test_three_fixups 1 ⟨[3, 7, -1, 5], 0⟩).get
          (by decide)).2.2, ∀ ty B n lic ls lv,
        c.1 = bpf_request.PROG_LOAD ty B n lic ls lv → ((2 : Nat) : Int) + 1 ≤ n) ∧
    ∃ t0 s0 r0 fd0, t0.well_formed P4 ∧ bpf_run_test P4 script_kernel t0 0 s0 = some r0 ∧
      (bpf_request.PROG_LOAD t0.type r0.1.insns (bpf_test_length P4 r0.1.insns) "GPL" 0 0, fd0) ∈
        bpf_calls r0.2.2 ∧
      bpf_test_length P4 t0.insns < bpf_test_length P4 r0.1.insns :=
  C10_patched_inside_body P4 script_kernel test_three_fixups 1 ⟨[3, 7, -1, 5], 0⟩
    ((bpf_run_test P4 script_kernel test_three_fixups 1 ⟨[3, 7, -1, 5], 0⟩).get (by decide))
    2 (fixup_at 2) 7 (by decide) (by simp) (by decide) (by decide) (by decide)

/-! ## An unavailable kernel call -/

theorem fixups_unavailable {κ : Type} (P : Platform) (kern : Kernel κ) (emits : String)
    (debug_mode : Int) (fm : List bpf_map_fixup) (insns : List bpf_insn) (s : Sys κ)
    (hsent : ∃ m ∈ fm, m.off = 0)
    (hdown : ∀ k req, (sys_reply P kern k req).1.ret = -1) :
    ∃ r0, bpf_run_test_fixups P kern emits debug_mode fm insns s = some r0 ∧
      r0.1 = insns ∧ closes r0.2.2 = [] ∧ flag_lines r0.2.2 = [] ∧
      ∀ c ∈ bpf_calls r0.2.2, c.2 = -1 := by
  cases fm with
  | nil => simp at hsent
  | cons m rest =>
    by_cases hm : m.off = 0
    · exact ⟨(insns, s, []), by simp [bpf_run_test_fixups, hm], rfl, rfl, rfl,
        by simp [bpf_calls]⟩
    · have hfd : (bpf_map_create P kern m.type m.size_key m.size_val 1 m.flags s).1 = -1 :=
        hdown _ _
      have hev := bpf_map_create_events P kern m.type m.size_key m.size_val 1 m.flags s
      have hstep : bpf_run_test_fixups P kern emits debug_mode (m :: rest) insns s =
          fixups_step P kern emits debug_mode rest insns
            (bpf_map_create P kern m.type m.size_key m.size_val 1 m.flags s) m.off := by
        simp only [bpf_run_test_fixups, hm, if_false, fixups_step]
      rw [hstep]
      generalize bpf_map_create P kern m.type m.size_key m.size_val 1 m.flags s = c at hev hfd
      obtain ⟨fd, s1, ev1⟩ := c
      simp only at hev hfd
      subst hev hfd
      refine ⟨_, by simp only [fixups_step]; rfl, rfl, ?_, ?_, ?_⟩
      · by_cases hd : debug_mode = 0 <;> simp [hd, closes]
      · by_cases hd : debug_mode = 0 <;> simp [hd, flag_lines]
      · by_cases hd : debug_mode = 0 <;> simp [hd, bpf_calls]

/-- The runner when every call fails. -/
theorem bpf_run_test_unavailable {κ : Type} (P : Platform) (kern : Kernel κ) (test : bpf_test)
    (debug_mode : Int) (s : Sys κ)
    (hsent : ∃ m ∈ test.fixup_map, m.off = 0)
    (hdown : ∀ k req, (sys_reply P kern k req).1.ret = -1) :
    ∃ r, bpf_run_test P kern test debug_mode s = some r ∧
      r.1 = test ∧ closes r.2.2 = [] ∧
      flag_lines r.2.2 = ["// #define " ++ test.emits ++ "\n\n"] ∧
      ∀ c ∈ bpf_calls r.2.2, c.2 = -1 := by
  obtain ⟨r0, hr0, hbuf, hcl, hfl, hc⟩ :=
    fixups_unavailable P kern test.emits debug_mode test.fixup_map test.insns s hsent hdown
  obtain ⟨htail, hclt, hflt, -⟩ := run_tail_spec P kern { test with insns := r0.1 } debug_mode r0.2.1
  have h1 : load_ret P kern { test with insns := r0.1 } r0.2.1 = -1 := hdown _ _
  have h2 : diag_ret P kern { test with insns := r0.1 } r0.2.1 = -1 := hdown _ _
  refine ⟨_, bpf_run_test_eq P kern test debug_mode s r0 hr0, ?_, ?_, ?_, ?_⟩
  · rw [hbuf]
  · simp [hcl, hclt, h1, h2]
  · simp [hfl, hflt, h1, flag_text_false]
  · intro c hcm
    simp only [bpf_calls_append, List.mem_append, htail, h1, h2] at hcm
    rcases hcm with hcm | hcm
    · exact hc c hcm
    · simp at hcm
      rcases hcm with rfl | rfl <;> rfl

/-- C9: when every `bpf()` call returns `-1` with `ENOSYS`, then for every table
of descriptors (each with a terminated fixup array) and every verbose setting
the run returns, leaves every descriptor as declared, prints the
commented-out flag line for each descriptor in table order, and closes no
handle. -/
theorem C9_unavailable_all_commented {κ : Type} (P : Platform) (kern : Kernel κ)
    (tests : List bpf_test) (debug_mode : Int) (s : Sys κ)
    (hsent : ∀ t ∈ tests, ∃ m ∈ t.fixup_map, m.off = 0)
    (hdown : ∀ k req,
      (sys_reply P kern k req).1.ret = -1 ∧ (sys_reply P kern k req).1.err = P.ENOSYS) :
    ∃ r, main_loop P kern debug_mode tests s = some r ∧
      r.1 = tests ∧
      flag_lines r.2.2 = tests.map (fun t => "// #define " ++ t.emits ++ "\n\n") ∧
      closes r.2.2 = [] ∧
      ∀ c ∈ bpf_calls r.2.2, c.2 = -1 := by
  induction tests generalizing s with
  | nil => exact ⟨([], s, []), rfl, rfl, rfl, rfl, by simp [bpf_calls]⟩
  | cons t rest ih =>
    obtain ⟨r1, hr1, ht, hcl1, hfl1, hc1⟩ := bpf_run_test_unavailable P kern t debug_mode s
      (hsent t (List.mem_cons_self _ _)) (fun k req => (hdown k req).1)
    obtain ⟨r2, hr2, hts, hfl2, hcl2, hc2⟩ :=
      ih r1.2.1 (fun t' ht' => hsent t' (List.mem_cons_of_mem _ ht'))
    refine ⟨(r1.1 :: r2.1, r2.2.1, r1.2.2 ++ r2.2.2), ?_, ?_, ?_, ?_, ?_⟩
    · simp only [main_loop, hr1, hr2]
    · simp [ht, hts]
    · simp [hfl1, hfl2]
    · simp [hcl1, hcl2]
    · intro c hc
      simp only [bpf_calls_append, List.mem_append] at hc
      rcases hc with hc | hc
      · exact hc1 c hc
      · exact hc2 c hc

/-- C9 on a platform without `__NR_bpf`, for a table of two descriptors. -/
theorem C9_witness :
    ∃ r, main_loop P4_nosys script_kernel 1 [test_one_fixup, test_three_fixups] ⟨[3, 4], 0⟩ =
        some r ∧
      r.1 = [test_one_fixup, test_three_fixups] ∧
      flag_lines r.2.2 = [test_one_fixup, test_three_fixups].map
        (fun t => "// #define " ++ t.emits ++ "\n\n") ∧
      closes r.2.2 = [] ∧
      ∀ c ∈ bpf_calls r.2.2, c.2 = -1 :=
  C9_unavailable_all_commented P4_nosys script_kernel [test_one_fixup, test_three_fixups] 1
    ⟨[3, 4], 0⟩ (by decide) (fun _ _ => ⟨rfl, rfl⟩)

/-! ## Verbose mode and the flag lines -/

theorem sys_reply_stateless {κ : Type} (P : Platform) (kern : Kernel κ)
    (hst : ∀ k k' req, (kern k req).1 = (kern k' req).1) (k k' : κ) (req : bpf_request) :
    (sys_reply P kern k req).1 = (sys_reply P kern k' req).1 := by
  unfold sys_reply
  cases P.NR_bpf with
  | none => rfl
  | some n => exact hst k k' req

/-- With such a kernel the buffer the fixup loop returns does not depend on the
state or on the verbose setting. -/
theorem fixups_stateless {κ : Type} (P : Platform) (kern : Kernel κ) (emits : String)
    (d1 d2 : Int) (hst : ∀ k k' req, (kern k req).1 = (kern k' req).1)
    (fm : List bpf_map_fixup) :
    ∀ (insns : List bpf_insn) (s1 s2 : Sys κ),
    (bpf_run_test_fixups P kern emits d1 fm insns s1).map (fun r => r.1) =
      (bpf_run_test_fixups P kern emits d2 fm insns s2).map (fun r => r.1) := by
  induction fm with
  | nil => intro insns s1 s2; rfl
  | cons m rest ih =>
    intro insns s1 s2
    by_cases hm : m.off = 0
    · simp [bpf_run_test_fixups, hm]
    · have hfd : (bpf_map_create P kern m.type m.size_key m.size_val 1 m.flags s1).1 =
          (bpf_map_create P kern m.type m.size_key m.size_val 1 m.flags s2).1 :=
        congrArg bpf_reply.ret (sys_reply_stateless P kern hst _ _ _)
      have hstep : ∀ (d : Int) (s : Sys κ),
          bpf_run_test_fixups P kern emits d (m :: rest) insns s =
          fixups_step P kern emits d rest insns
            (bpf_map_create P kern m.type m.size_key m.size_val 1 m.flags s) m.off := by
        intro d s
        simp only [bpf_run_test_fixups, hm, if_false, fixups_step]
      rw [hstep, hstep]
      generalize bpf_map_create P kern m.type m.size_key m.size_val 1 m.flags s1 = c1 at hfd
      generalize bpf_map_create P kern m.type m.size_key m.size_val 1 m.flags s2 = c2 at hfd
      obtain ⟨fd1, t1, ev1⟩ := c1
      obtain ⟨fd2, t2, ev2⟩ := c2
      simp only at hfd
      subst hfd
      by_cases hneg : fd1 < 0
      · simp [fixups_step, hneg]
      · simp only [fixups_step, hneg, if_false]
        cases hst1 : store_imm insns m.off fd1 with
        | none => rfl
        | some insns1 =>
          have := ih insns1 t1 t2
          simp only
          cases h1 : bpf_run_test_fixups P kern emits d1 rest insns1 t1 <;>
          cases h2 : bpf_run_test_fixups P kern emits d2 rest insns1 t2 <;>
          simp_all

/-- With such a kernel two runs on a descriptor agree on the patched descriptor,
the flag line and the log-less load. -/
theorem bpf_run_test_stateless {κ : Type} (P : Platform) (kern : Kernel κ) (test : bpf_test)
    (d1 d2 : Int) (s1 s2 : Sys κ) (hwf : test.well_formed P)
    (hst : ∀ k k' req, (kern k req).1 = (kern k' req).1) :
    ∃ r1 r2, bpf_run_test P kern test d1 s1 = some r1 ∧
      bpf_run_test P kern test d2 s2 = some r2 ∧
      r1.1 = r2.1 ∧
      flag_lines r1.2.2 = flag_lines r2.2.2 ∧
      (flag_lines r1.2.2).length = 1 ∧
      (bpf_calls r1.2.2).filter (fun c => is_logless_load c.1) =
        (bpf_calls r2.2.2).filter (fun c => is_logless_load c.1) := by
  obtain ⟨hs, ho⟩ := well_formed_fixups P test hwf
  obtain ⟨a, retsa, hra, -, hcallsa, -, -, -, -, hfla, -⟩ :=
    fixups_spec P kern test.emits d1 test.fixup_map test.insns s1 hs ho
  obtain ⟨b, retsb, hrb, -, hcallsb, -, -, -, -, hflb, -⟩ :=
    fixups_spec P kern test.emits d2 test.fixup_map test.insns s2 hs ho
  have hab : a.1 = b.1 := by
    have := fixups_stateless P kern test.emits d1 d2 hst test.fixup_map test.insns s1 s2
    rw [hra, hrb] at this
    exact Option.some.inj this
  obtain ⟨htaila, -, hflta, -⟩ := run_tail_spec P kern { test with insns := a.1 } d1 a.2.1
  obtain ⟨htailb, -, hfltb, -⟩ := run_tail_spec P kern { test with insns := b.1 } d2 b.2.1
  have hret : load_ret P kern { test with insns := a.1 } a.2.1 =
      load_ret P kern { test with insns := b.1 } b.2.1 := by
    rw [hab]
    exact congrArg bpf_reply.ret (sys_reply_stateless P kern hst _ _ _)
  refine ⟨_, _, bpf_run_test_eq P kern test d1 s1 a hra, bpf_run_test_eq P kern test d2 s2 b hrb,
    ?_, ?_, ?_, ?_⟩
  · rw [hab]
  · simp only [flag_lines_append, hfla, hflb, hflta, hfltb, hret]
  · simp [hfla, hflta]
  · have hl : ∀ (x : bpf_test) (d fd fd2 : Int),
        ((load_request P x, fd) ::
          (if ¬ 0 < fd ∨ d ≠ 0 then [(diag_request P x, fd2)] else [])).filter
          (fun c => is_logless_load c.1) = [(load_request P x, fd)] := by
      intro x d fd fd2
      by_cases h : ¬ 0 < fd ∨ d ≠ 0 <;>
      simp [h, List.filter_cons, load_request, diag_request, bpf_vlog_size, is_logless_load]
    simp only [bpf_calls_append, List.filter_append, hcallsa, hcallsb, filter_zip_create_logless,
      htaila, htailb, List.nil_append, hl]
    rw [hret, hab]

/-- C5: for a table of well-formed descriptors and a kernel whose reply depends
only on the request, two runs with any two verbose settings print the same
flag lines, one per descriptor, and their log-less loads (request and
returned handle, hence the success value given to `bpf_report`) are the
same. -/
theorem C5_verbose_same_flag_lines {κ : Type} (P : Platform) (kern : Kernel κ)
    (tests : List bpf_test) (d1 d2 : Int) (s1 s2 : Sys κ)
    (hwf : ∀ t ∈ tests, t.well_formed P)
    (hst : ∀ k k' req, (kern k req).1 = (kern k' req).1) :
    ∃ r1 r2, main_loop P kern d1 tests s1 = some r1 ∧
      main_loop P kern d2 tests s2 = some r2 ∧
      flag_lines r1.2.2 = flag_lines r2.2.2 ∧
      (flag_lines r1.2.2).length = tests.length ∧
      (bpf_calls r1.2.2).filter (fun c => is_logless_load c.1) =
        (bpf_calls r2.2.2).filter (fun c => is_logless_load c.1) := by
  induction tests generalizing s1 s2 with
  | nil => exact ⟨([], s1, []), ([], s2, []), rfl, rfl, rfl, rfl, rfl⟩
  | cons t rest ih =>
    obtain ⟨a1, a2, ha1, ha2, -, hfl, hlen, hld⟩ :=
      bpf_run_test_stateless P kern t d1 d2 s1 s2 (hwf t (List.mem_cons_self _ _)) hst
    obtain ⟨b1, b2, hb1, hb2, hfl', hlen', hld'⟩ :=
      ih a1.2.1 a2.2.1 (fun t' ht' => hwf t' (List.mem_cons_of_mem _ ht'))
    refine ⟨(a1.1 :: b1.1, b1.2.1, a1.2.2 ++ b1.2.2), (a2.1 :: b2.1, b2.2.1, a2.2.2 ++ b2.2.2),
      ?_, ?_, ?_, ?_, ?_⟩
    · simp only [main_loop, ha1, hb1]
    · simp only [main_loop, ha2, hb2]
    · simp only [flag_lines_append, hfl, hfl']
    · simp only [flag_lines_append, List.length_append, hlen, hlen', List.length_cons]
      omega
    · simp only [bpf_calls_append, List.filter_append, hld, hld']

/-- C5 for verbose off and on, over a table of two descriptors. -/
theorem C5_witness :
    ∃ r1 r2, main_loop P4 fixed_kernel 0 [test_one_fixup, test_three_fixups] ⟨(), 0⟩ = some r1 ∧
      main_loop P4 fixed_kernel 1 [test_one_fixup, test_three_fixups] ⟨(), 0⟩ = some r2 ∧
      flag_lines r1.2.2 = flag_lines r2.2.2 ∧
      (flag_lines r1.2.2).length = [test_one_fixup, test_three_fixups].length ∧
      (bpf_calls r1.2.2).filter (fun c => is_logless_load c.1) =
        (bpf_calls r2.2.2).filter (fun c => is_logless_load c.1) :=
  C5_verbose_same_flag_lines P4 fixed_kernel [test_one_fixup, test_three_fixups] 0 1 ⟨(), 0⟩
    ⟨(), 0⟩ (by decide) (fun _ _ _ => rfl)

end RawProbe
